import Mathlib

/-!
Verification of the gImage specification (engine/graphics/gImage.h).

Only the header of gImage is available under src/, so every operation body is
modelled from the specification, as its doc comment records.  Pixel storage is
modelled as lists (8-bit channels as naturals, HDR float channels as opaque
integer bit values — no float arithmetic is performed anywhere), the GPU
texture collaborator as an allocator state with a set of live handles and a
log of uploaded buffers, and the external decoder by its result
(`Option PixelBuffer`).
-/

set_option maxHeartbeats 1000000

namespace GlistEngine

/-- Modelled from the spec: pixel format tags, `Integer8` (interleaved 8-bit
channels) and `FloatHDR` (interleaved 32-bit float channels).  The body of
gImage.cpp is not under src/. -/
inductive PixelFormat where
  | integer8
  | floatHDR
  deriving DecidableEq, Repr

/-- Modelled from the spec: the raw storage of a PixelBuffer, tagged by
format.  Float values are opaque (represented by integers, no arithmetic). -/
inductive Storage where
  | int8 (bytes : List Nat)
  | hdr (floats : List Int)
  deriving DecidableEq, Repr

/-- The format tag carried by a storage block. -/
def Storage.format : Storage → PixelFormat
  | .int8 _ => .integer8
  | .hdr _ => .floatHDR

/-- Number of stored channel samples. -/
def Storage.size : Storage → Nat
  | .int8 bytes => bytes.length
  | .hdr floats => floats.length

/-- Modelled from the spec: a PixelBuffer is an owned, format-tagged block of
pixel memory with width/height/channel-count metadata. -/
structure PixelBuffer where
  width : Nat
  height : Nat
  componentNum : Nat
  storage : Storage
  deriving DecidableEq, Repr

/-- The format tag of a buffer. -/
def PixelBuffer.format (pb : PixelBuffer) : PixelFormat := pb.storage.format

/-- Spec invariant on a PixelBuffer: the storage size is consistent with
width, height and channel count. -/
def PixelBuffer.consistent (pb : PixelBuffer) : Bool :=
  pb.storage.size == pb.width * pb.height * pb.componentNum

/-- Modelled from the spec: the state of the external GPU texture collaborator
(GpuUploader/GpuDestroyer).  `nextid` is the next handle to hand out (handles
are non-zero: 0 denotes "no texture"), `live` the currently live handles, and
`uploads` a log of every PixelBuffer that was uploaded, in order. -/
structure GpuState where
  nextid : Nat
  live : List Nat
  uploads : List PixelBuffer
  deriving DecidableEq, Repr

/-- A fresh GPU state: no live handles, first handle will be 1. -/
def GpuState.initial : GpuState := ⟨1, [], []⟩

/-- Destroying a texture handle removes it from the live set; destroying the
0 sentinel is a no-op because 0 is never live. -/
def GpuState.destroyTexture (gpu : GpuState) (t : Nat) : GpuState :=
  { gpu with live := gpu.live.filter (fun h => h != t) }

/-- Creating a texture uploads the buffer and returns a fresh live handle. -/
def GpuState.createTexture (gpu : GpuState) (pb : PixelBuffer) : GpuState × Nat :=
  (⟨gpu.nextid + 1, gpu.nextid :: gpu.live, gpu.uploads ++ [pb]⟩, gpu.nextid)

/-- Modelled from the spec: the gImage entity.  It owns at most one
PixelBuffer and at most one GPU texture handle (`texture = 0` meaning none),
carries its current dimensions (inherited from gTexture in the source), and
tracks provenance (`loadedfromurl`, `imageurl`), matching the private fields
declared in gImage.h. -/
structure gImage where
  width : Nat
  height : Nat
  componentnum : Nat
  texture : Nat
  buffer : Option PixelBuffer
  loadedfromurl : Bool
  imageurl : String
  deriving DecidableEq, Repr

/-- Modelled from the spec: the default constructor `gImage()` creates an
image in the `NoData/NoTexture` state. -/
def gImageDefault : gImage := ⟨0, 0, 0, 0, none, false, ""⟩

/-- Modelled from the spec: `useData()` requires a present PixelBuffer
(fails, returning the 0 handle, otherwise); it destroys any previous texture
handle first, uploads the current buffer, stores and returns the new
handle. -/
def gImage.useData (img : gImage) (gpu : GpuState) : gImage × GpuState × Nat :=
  match img.buffer with
  | none => (img, gpu, 0)
  | some pb =>
    let gpu1 := gpu.destroyTexture img.texture
    let r := gpu1.createTexture pb
    ({ img with texture := r.2 }, r.1, r.2)

/-- Modelled from the spec: `load(fullPath)` resolves and decodes
synchronously (the external resolver/decoder pair is represented by its
result `decoded`), stores the PixelBuffer, immediately invokes the GPU upload
and returns the new texture handle; on resolution or decode failure it
returns the invalid handle 0 and leaves the image fully unchanged. -/
def gImage.load (img : gImage) (gpu : GpuState) (decoded : Option PixelBuffer) :
    gImage × GpuState × Nat :=
  match decoded with
  | none => (img, gpu, 0)
  | some pb =>
    let img1 : gImage :=
      { img with width := pb.width, height := pb.height,
                 componentnum := pb.componentNum, buffer := some pb }
    img1.useData gpu

/-- Modelled from the spec: `loadImage(imagePath)` has the same contract as
`load`, the project-relative path resolution being external. -/
def gImage.loadImage (img : gImage) (gpu : GpuState) (decoded : Option PixelBuffer) :
    gImage × GpuState × Nat :=
  img.load gpu decoded

/-- Modelled from the spec: the completion step of `loadData(fullPath)` /
`loadImageData(imagePath)`.  The worker thread resolves and decodes; on
completion it atomically replaces the image's PixelBuffer slot (discarding
any previous buffer), creating no texture; on failure it leaves the slot
unchanged.  The atomic publish is modelled as this single state
transition. -/
def gImage.loadDataComplete (img : gImage) (decoded : Option PixelBuffer) : gImage :=
  match decoded with
  | none => img
  | some pb =>
    { img with width := pb.width, height := pb.height,
               componentnum := pb.componentNum, buffer := some pb }

/-- Modelled from the spec: `setImageData(imageData)` (convenience overload)
replaces the PixelBuffer wholesale in integer format, inferring
width/height/channel count from the image's current dimensions. -/
def gImage.setImageData (img : gImage) (imageData : List Nat) : gImage :=
  { img with buffer := some ⟨img.width, img.height, img.componentnum, .int8 imageData⟩ }

/-- Modelled from the spec: `setImageData(imageData, width, height,
componentNum)` (explicit overload) replaces the PixelBuffer wholesale in
integer format with the given dimensions; it does not touch the texture
handle. -/
def gImage.setImageData4 (img : gImage) (imageData : List Nat)
    (width height componentNum : Nat) : gImage :=
  { img with width := width, height := height, componentnum := componentNum,
             buffer := some ⟨width, height, componentNum, .int8 imageData⟩ }

/-- Modelled from the spec: `setImageDataHDR(imageData)` replaces the
PixelBuffer wholesale in float format, inferring dimensions from the image's
current dimensions. -/
def gImage.setImageDataHDR (img : gImage) (imageData : List Int) : gImage :=
  { img with buffer := some ⟨img.width, img.height, img.componentnum, .hdr imageData⟩ }

/-- Modelled from the spec: `getImageData()` returns the current buffer's
storage in integer format; it fails (returns none, the model of a null
pointer) if no buffer is present or the buffer's format tag is not
Integer8. -/
def gImage.getImageData (img : gImage) : Option (List Nat) :=
  match img.buffer with
  | some ⟨_, _, _, .int8 bytes⟩ => some bytes
  | _ => none

/-- Modelled from the spec: `getImageDataHDR()` returns the current buffer's
storage in float format; it fails (returns none) if no buffer is present or
the buffer's format tag is not FloatHDR. -/
def gImage.getImageDataHDR (img : gImage) : Option (List Int) :=
  match img.buffer with
  | some ⟨_, _, _, .hdr floats⟩ => some floats
  | _ => none

/-- Modelled from the spec: `clearData()` releases the PixelBuffer storage
and transitions to `NoData`; the texture handle (if any) is untouched. -/
def gImage.clearData (img : gImage) : gImage :=
  { img with buffer := none }

/-- The URL the image was loaded from, `getImageUrl()` of the source. -/
def gImage.getImageUrl (img : gImage) : String := img.imageurl

/-- Modelled from the spec: stripping the trailing query string from a URL
keeps everything strictly before the first question mark. -/
def cutUrlParams (url : String) : String :=
  String.mk (url.data.takeWhile (fun c => c != '?'))

/-- Modelled from the spec: `loadImageFromURL(imageUrl, cutUrlParameters)`
sets the provenance flag, stores the source URL (with the query string
stripped when `cutUrlParameters` is true), and otherwise has the same
contract as `load` (the network resolver and decoder represented by
`decoded`). -/
def gImage.loadImageFromURL2 (img : gImage) (gpu : GpuState) (imageUrl : String)
    (cutUrlParameters : Bool) (decoded : Option PixelBuffer) :
    gImage × GpuState × Nat :=
  let url := if cutUrlParameters then cutUrlParams imageUrl else imageUrl
  let img1 : gImage := { img with loadedfromurl := true, imageurl := url }
  img1.load gpu decoded

/-- Modelled from the spec: the one-argument overload
`loadImageFromURL(imageUrl)` keeps the full URL (`cutUrlParameters`
defaults to false). -/
def gImage.loadImageFromURL1 (img : gImage) (gpu : GpuState) (imageUrl : String)
    (decoded : Option PixelBuffer) : gImage × GpuState × Nat :=
  img.loadImageFromURL2 gpu imageUrl false decoded

/-- Modelled from the spec: a sequence of async `loadData`/`loadImageData`
completions applied in publish order to an image; each completion is the
single atomic publish step `loadDataComplete`.  A reader observing the image
at any instant sees `runCompletions` of the prefix of completions published
so far. -/
def runCompletions (img : gImage) (events : List (Option PixelBuffer)) : gImage :=
  events.foldl gImage.loadDataComplete img

/-- Modelled from the spec: decimal rendering of the download sequence
number, most significant digit first. -/
def natChars (n : Nat) : List Char :=
  ((Nat.digits 10 n).map Nat.digitChar).reverse

/-- Modelled from the spec: generated download filenames have the shape
"<sequence-number>.<imageType>". -/
def downloadFileName (n : Nat) (imageType : String) : String :=
  String.mk (natChars n ++ '.' :: imageType.data)

/-- Modelled from the spec: `generateDownloadedImagePath(imageType)`
atomically increments and reads the process-wide download counter
`downloadno` (the static member of gImage) and returns the generated
filename.  The atomic increment-and-read is modelled as this single step on
the counter state. -/
def generateDownloadedImagePath (downloadno : Nat) (imageType : String) :
    String × Nat :=
  (downloadFileName (downloadno + 1) imageType, downloadno + 1)

/-- Modelled from the spec: `imageType` defaults to "png". -/
def generateDownloadedImagePathDefault (downloadno : Nat) : String × Nat :=
  generateDownloadedImagePath downloadno "png"

/-- A serialization of N concurrent `generateDownloadedImagePath` calls:
because the counter update is atomic, the N calls' increments happen in some
serial order of requested image types; `genRun` lists each call's
(filename, sequence number) in that order. -/
def genRun (downloadno : Nat) : List String → List (String × Nat)
  | [] => []
  | t :: ts =>
    generateDownloadedImagePath downloadno t ::
      genRun (generateDownloadedImagePath downloadno t).2 ts

/-- The per-image GPU invariant: handles are non-zero and below the
allocator's next id, and the live set is exactly the image's current handle
(so at most one handle is live per image at any time). -/
def GpuInv (img : gImage) (gpu : GpuState) : Prop :=
  1 ≤ gpu.nextid ∧ img.texture < gpu.nextid ∧
    gpu.live = (if img.texture = 0 then [] else [img.texture])

instance (img : gImage) (gpu : GpuState) : Decidable (GpuInv img gpu) := by
  unfold GpuInv; infer_instance

/-- A concrete 2x2 single-channel integer buffer used by witnesses. -/
def pbW : PixelBuffer := ⟨2, 2, 1, .int8 [10, 20, 30, 40]⟩

/-- A concrete image holding `pbW` and no texture, used by witnesses. -/
def imgW : gImage := ⟨2, 2, 1, 0, some pbW, false, ""⟩

/-- C4: every failed load is atomic with respect to the image's state — the
synchronous entry points `load`, `loadImage` and `useData` return the 0
handle leaving image and GPU state untouched, and a failed `loadData`
completion leaves the PixelBuffer slot (and the whole image) unchanged. -/
theorem c4_failure_atomic (img : gImage) (gpu : GpuState) :
    img.load gpu none = (img, gpu, 0) ∧
    img.loadImage gpu none = (img, gpu, 0) ∧
    (img.buffer = none → img.useData gpu = (img, gpu, 0)) ∧
    img.loadDataComplete none = img := by
  refine ⟨rfl, rfl, fun h => ?_, rfl⟩
  simp [gImage.useData, h]

/-- C4 witness: the failure paths at a concrete image and GPU state. -/
theorem c4_failure_atomic_witness :
    gImageDefault.load GpuState.initial none = (gImageDefault, GpuState.initial, 0) ∧
    gImageDefault.loadImage GpuState.initial none = (gImageDefault, GpuState.initial, 0) ∧
    (gImageDefault.buffer = none →
      gImageDefault.useData GpuState.initial = (gImageDefault, GpuState.initial, 0)) ∧
    gImageDefault.loadDataComplete none = gImageDefault :=
  c4_failure_atomic gImageDefault GpuState.initial

/-- C6: on every image whose PixelBuffer slot is empty — in particular a
freshly constructed gImage, and any image right after `clearData` —
`useData` fails, returning the 0 handle and changing nothing. -/
theorem c6_useData_empty_fails (img : gImage) (gpu : GpuState) :
    (img.buffer = none → img.useData gpu = (img, gpu, 0)) ∧
    gImageDefault.useData gpu = (gImageDefault, gpu, 0) ∧
    img.clearData.useData gpu = (img.clearData, gpu, 0) := by
  refine ⟨fun h => ?_, ?_, ?_⟩ <;>
    simp [gImage.useData, gImage.clearData, gImageDefault, *]

/-- C6 witness: `useData` fails on a concrete empty image and after a
concrete `clearData`. -/
theorem c6_useData_empty_fails_witness :
    (imgW.buffer = none →
      imgW.useData GpuState.initial = (imgW, GpuState.initial, 0)) ∧
    gImageDefault.useData GpuState.initial = (gImageDefault, GpuState.initial, 0) ∧
    imgW.clearData.useData GpuState.initial = (imgW.clearData, GpuState.initial, 0) :=
  c6_useData_empty_fails imgW GpuState.initial

/-- C7: for an image holding a texture handle, `clearData` releases only the
PixelBuffer: afterwards both getters return empty (none) and the buffer slot
is gone, while the texture handle is unchanged and still live in the
(untouched) GPU state. -/
theorem c7_clearData_keeps_texture (img : gImage) (gpu : GpuState)
    (hinv : GpuInv img gpu) (htex : img.texture ≠ 0) :
    img.clearData.texture = img.texture ∧
    img.clearData.getImageData = none ∧
    img.clearData.getImageDataHDR = none ∧
    img.clearData.buffer = none ∧
    img.texture ∈ gpu.live := by
  refine ⟨rfl, ?_, ?_, rfl, ?_⟩
  · simp [gImage.getImageData, gImage.clearData]
  · simp [gImage.getImageDataHDR, gImage.clearData]
  · rw [hinv.2.2]; simp [htex]

/-- C7 witness: `clearData` on a concrete image holding texture handle 1. -/
theorem c7_clearData_keeps_texture_witness :
    (⟨2, 2, 1, 1, some pbW, false, ""⟩ : gImage).clearData.texture = 1 ∧
    (⟨2, 2, 1, 1, some pbW, false, ""⟩ : gImage).clearData.getImageData = none ∧
    (⟨2, 2, 1, 1, some pbW, false, ""⟩ : gImage).clearData.getImageDataHDR = none ∧
    (⟨2, 2, 1, 1, some pbW, false, ""⟩ : gImage).clearData.buffer = none ∧
    (1 : Nat) ∈ (⟨2, [1], []⟩ : GpuState).live :=
  c7_clearData_keeps_texture ⟨2, 2, 1, 1, some pbW, false, ""⟩ ⟨2, [1], []⟩
    (by decide) (by decide)

/-- C8: `getImageDataHDR` on an integer-format buffer returns none (no silent
reinterpretation of the bytes), `getImageData` on an HDR buffer returns none,
and both getters return none when no buffer is present at all. -/
theorem c8_format_mismatch (img : gImage) :
    (∀ pb bytes, img.buffer = some pb → pb.storage = Storage.int8 bytes →
      img.getImageDataHDR = none) ∧
    (∀ pb floats, img.buffer = some pb → pb.storage = Storage.hdr floats →
      img.getImageData = none) ∧
    (img.buffer = none → img.getImageData = none ∧ img.getImageDataHDR = none) := by
  refine ⟨fun pb bytes hb hs => ?_, fun pb floats hb hs => ?_, fun h => ⟨?_, ?_⟩⟩ <;>
    first
    | (simp [gImage.getImageData, h])
    | (simp [gImage.getImageDataHDR, h])
    | (cases pb; cases hs; simp [gImage.getImageDataHDR, hb])
    | (cases pb; cases hs; simp [gImage.getImageData, hb])

/-- C8 witness: the format-mismatch behaviour at a concrete integer-buffer
image. -/
theorem c8_format_mismatch_witness :
    (∀ pb bytes, imgW.buffer = some pb → pb.storage = Storage.int8 bytes →
      imgW.getImageDataHDR = none) ∧
    (∀ pb floats, imgW.buffer = some pb → pb.storage = Storage.hdr floats →
      imgW.getImageData = none) ∧
    (imgW.buffer = none → imgW.getImageData = none ∧ imgW.getImageDataHDR = none) :=
  c8_format_mismatch imgW

lemma runCompletions_cons (img : gImage) (e : Option PixelBuffer)
    (es : List (Option PixelBuffer)) :
    runCompletions img (e :: es) = runCompletions (img.loadDataComplete e) es := rfl

/-- After any sequence of completions the buffer slot is either the initial
buffer or exactly one of the published results, wholesale. -/
lemma runCompletions_buffer (img : gImage) (events : List (Option PixelBuffer)) :
    (runCompletions img events).buffer = img.buffer ∨
      ∃ pb, some pb ∈ events ∧ (runCompletions img events).buffer = some pb := by
  induction events generalizing img with
  | nil => exact Or.inl rfl
  | cons e es ih =>
    rw [runCompletions_cons]
    rcases ih (img.loadDataComplete e) with h | ⟨pb, hmem, hbuf⟩
    · cases e with
      | none => exact Or.inl h
      | some pb => exact Or.inr ⟨pb, by simp, by rw [h]; rfl⟩
    · exact Or.inr ⟨pb, by simp [hmem], hbuf⟩

/-- C1: the PixelBuffer replacement performed by completed
loadData/loadImageData work is all-or-nothing: at every observation point
(after any prefix of completions) the reader sees either the initial complete
buffer or one published complete buffer — width/height/storage-size stay
mutually consistent, never a mix of two loads — and immediately after a
worker completes, getImageData reflects the newly published buffer. -/
theorem c1_async_publish_atomic (img : gImage) (events : List (Option PixelBuffer))
    (himg : ∀ pb, img.buffer = some pb → pb.consistent = true)
    (hev : ∀ pb, some pb ∈ events → pb.consistent = true) :
    (∀ n,
      ((runCompletions img (events.take n)).buffer = img.buffer ∨
        ∃ pb, some pb ∈ events ∧
          (runCompletions img (events.take n)).buffer = some pb) ∧
      (∀ pb, (runCompletions img (events.take n)).buffer = some pb →
        pb.consistent = true)) ∧
    (∀ pb bytes, pb.storage = Storage.int8 bytes →
      ((runCompletions img events).loadDataComplete (some pb)).getImageData =
        some bytes) ∧
    (∀ pb, ((runCompletions img events).loadDataComplete (some pb)).buffer =
      some pb) := by
  refine ⟨fun n => ?_, fun pb bytes hstor => ?_, fun pb => rfl⟩
  · rcases runCompletions_buffer img (events.take n) with h | ⟨pb, hmem, hbuf⟩
    · exact ⟨Or.inl h, fun pb hpb => himg pb (h.symm.trans hpb)⟩
    · have hm : some pb ∈ events := List.take_subset n events hmem
      refine ⟨Or.inr ⟨pb, hm, hbuf⟩, fun pb' hpb' => ?_⟩
      rw [hbuf] at hpb'
      injection hpb' with hpb'
      exact hpb' ▸ hev pb hm
  · obtain ⟨w, h, c, stor⟩ := pb
    cases hstor
    rfl

/-- C1 witness: one successful and one failed completion on a concrete fresh
image. -/
theorem c1_async_publish_atomic_witness :
    (∀ n,
      ((runCompletions gImageDefault ([some pbW, none].take n)).buffer =
          gImageDefault.buffer ∨
        ∃ pb, some pb ∈ [some pbW, none] ∧
          (runCompletions gImageDefault ([some pbW, none].take n)).buffer =
            some pb) ∧
      (∀ pb,
        (runCompletions gImageDefault ([some pbW, none].take n)).buffer =
          some pb → pb.consistent = true)) ∧
    (∀ pb bytes, pb.storage = Storage.int8 bytes →
      ((runCompletions gImageDefault [some pbW, none]).loadDataComplete
          (some pb)).getImageData = some bytes) ∧
    (∀ pb,
      ((runCompletions gImageDefault [some pbW, none]).loadDataComplete
          (some pb)).buffer = some pb) :=
  c1_async_publish_atomic gImageDefault [some pbW, none]
    (fun pb h => by simp [gImageDefault] at h)
    (fun pb h => by
      have hpb : pb = pbW := by simpa using h
      exact hpb ▸ (by decide))

/-- C10: `loadImageFromURL` with `cutUrlParameters = true` stores the source
URL with the trailing query string stripped (on the concrete example,
"http://x/y.png?foo=1" is stored as "http://x/y.png"), `false` preserves the
full URL, the loaded-from-URL provenance flag is set true in both cases, the
call otherwise has exactly the contract of `load`, and the one-argument
overload defaults to keeping the full URL. -/
theorem c10_loadImageFromURL_provenance (img : gImage) (gpu : GpuState)
    (decoded : Option PixelBuffer) :
    cutUrlParams "http://x/y.png?foo=1" = "http://x/y.png" ∧
    (∀ url, (img.loadImageFromURL2 gpu url true decoded).1.getImageUrl =
      cutUrlParams url) ∧
    (∀ url, (img.loadImageFromURL2 gpu url false decoded).1.getImageUrl = url) ∧
    (∀ url c, (img.loadImageFromURL2 gpu url c decoded).1.loadedfromurl = true) ∧
    (∀ url c, img.loadImageFromURL2 gpu url c decoded =
      gImage.load { img with loadedfromurl := true,
                              imageurl := if c then cutUrlParams url else url }
        gpu decoded) ∧
    (∀ url, img.loadImageFromURL1 gpu url decoded =
      img.loadImageFromURL2 gpu url false decoded) := by
  refine ⟨by decide, fun url => ?_, fun url => ?_, fun url c => ?_,
    fun url c => rfl, fun url => rfl⟩ <;>
    cases decoded <;>
    simp [gImage.loadImageFromURL2, gImage.load, gImage.useData,
      gImage.getImageUrl]

/-- C3: at most one GPU texture handle is live per image at a time: each
successful `useData` destroys the previous handle first, then stores and
returns the new non-zero handle; calling `useData` twice in a row uploads the
same pixel content both times but the second call destroys the handle
returned by the first. -/
theorem c3_single_live_handle (img : gImage) (gpu : GpuState) (pb : PixelBuffer)
    (hbuf : img.buffer = some pb) (hinv : GpuInv img gpu) :
    let r1 := img.useData gpu
    let r2 := r1.1.useData r1.2.1
    r1.2.2 ≠ 0 ∧ r1.1.texture = r1.2.2 ∧ r1.2.1.live = [r1.2.2] ∧
    r1.1.buffer = some pb ∧ GpuInv r1.1 r1.2.1 ∧
    r2.2.2 ≠ 0 ∧ r1.2.2 ∉ r2.2.1.live ∧ r2.1.texture = r2.2.2 ∧
    r2.2.1.live = [r2.2.2] ∧ GpuInv r2.1 r2.2.1 ∧
    r2.2.1.uploads = gpu.uploads ++ [pb, pb] := by
  obtain ⟨h1, h2, h3⟩ := hinv
  have hn : gpu.nextid ≠ 0 := by omega
  by_cases ht : img.texture = 0 <;>
    simp_all [gImage.useData, hbuf, GpuState.destroyTexture, GpuState.createTexture,
      GpuInv, List.filter]

/-- C3 witness: two consecutive `useData` calls on a concrete image holding a
concrete buffer, starting from the fresh GPU state. -/
theorem c3_single_live_handle_witness :
    let r1 := imgW.useData GpuState.initial
    let r2 := r1.1.useData r1.2.1
    r1.2.2 ≠ 0 ∧ r1.1.texture = r1.2.2 ∧ r1.2.1.live = [r1.2.2] ∧
    r1.1.buffer = some pbW ∧ GpuInv r1.1 r1.2.1 ∧
    r2.2.2 ≠ 0 ∧ r1.2.2 ∉ r2.2.1.live ∧ r2.1.texture = r2.2.2 ∧
    r2.2.1.live = [r2.2.2] ∧ GpuInv r2.1 r2.2.1 ∧
    r2.2.1.uploads = GpuState.initial.uploads ++ [pbW, pbW] :=
  c3_single_live_handle imgW GpuState.initial pbW rfl (by decide)

/-- C5: for a valid (decodable) image source, `load` followed by
`getImageData` returns exactly the decoded bytes, whose length matches the
decoded width x height x channel count, and the upload succeeds: `load`
returns a non-zero handle and a subsequent `useData` also returns a non-zero
handle. -/
theorem c5_load_getImageData (img : gImage) (gpu : GpuState) (pb : PixelBuffer)
    (bytes : List Nat) (hstor : pb.storage = Storage.int8 bytes)
    (hcons : pb.consistent = true) (hinv : GpuInv img gpu) :
    let r := img.load gpu (some pb)
    r.1.buffer = some pb ∧
    r.1.getImageData = some bytes ∧
    bytes.length = pb.width * pb.height * pb.componentNum ∧
    r.2.2 ≠ 0 ∧
    (r.1.useData r.2.1).2.2 ≠ 0 := by
  obtain ⟨w, h, c, stor⟩ := pb
  cases hstor
  simp only [PixelBuffer.consistent, Storage.size, beq_iff_eq] at hcons
  obtain ⟨h1, h2, h3⟩ := hinv
  simp_all [gImage.load, gImage.useData, gImage.getImageData,
    GpuState.destroyTexture, GpuState.createTexture]
  omega

/-- C5 witness: loading a concrete consistent 2x2x1 buffer into a fresh image
and GPU state. -/
theorem c5_load_getImageData_witness :
    let r := gImageDefault.load GpuState.initial (some pbW)
    r.1.buffer = some pbW ∧
    r.1.getImageData = some [10, 20, 30, 40] ∧
    ([10, 20, 30, 40] : List Nat).length = pbW.width * pbW.height * pbW.componentNum ∧
    r.2.2 ≠ 0 ∧
    (r.1.useData r.2.1).2.2 ≠ 0 :=
  c5_load_getImageData gImageDefault GpuState.initial pbW [10, 20, 30, 40]
    rfl (by decide) (by decide)

/-- C9: `setImageData` with explicit width/height/componentNum followed by
`getImageData` returns exactly the bytes provided, and `setImageDataHDR`
followed by `getImageDataHDR` returns exactly the float data provided. -/
theorem c9_set_get_roundtrip (img : gImage) (data : List Nat) (fdata : List Int)
    (w h c : Nat) :
    (img.setImageData4 data w h c).getImageData = some data ∧
    (img.setImageDataHDR fdata).getImageDataHDR = some fdata :=
  ⟨rfl, rfl⟩

lemma digits10_injective (m n : Nat) (h : Nat.digits 10 m = Nat.digits 10 n) :
    m = n := by
  have hm := Nat.ofDigits_digits 10 m
  have hn := Nat.ofDigits_digits 10 n
  rw [← hm, ← hn, h]

lemma digitChar_inj_lt : ∀ a < 10, ∀ b < 10,
    Nat.digitChar a = Nat.digitChar b → a = b := by decide

lemma digitChar_ne_dot : ∀ a < 10, Nat.digitChar a ≠ '.' := by decide

lemma map_digitChar_inj : ∀ l1 l2 : List Nat, (∀ a ∈ l1, a < 10) →
    (∀ a ∈ l2, a < 10) → l1.map Nat.digitChar = l2.map Nat.digitChar → l1 = l2
  | [], [], _, _, _ => rfl
  | [], _ :: _, _, _, h => by simp at h
  | _ :: _, [], _, _, h => by simp at h
  | a :: t, b :: t2, h1, h2, h => by
    simp only [List.map_cons, List.cons.injEq] at h
    have hab := digitChar_inj_lt a (h1 a (by simp)) b (h2 b (by simp)) h.1
    have ht := map_digitChar_inj t t2 (fun x hx => h1 x (by simp [hx]))
      (fun x hx => h2 x (by simp [hx])) h.2
    rw [hab, ht]

lemma natChars_injective (m n : Nat) (h : natChars m = natChars n) : m = n := by
  unfold natChars at h
  have h2 := List.reverse_injective h
  exact digits10_injective m n
    (map_digitChar_inj _ _ (fun a ha => Nat.digits_lt_base (by norm_num) ha)
      (fun a ha => Nat.digits_lt_base (by norm_num) ha) h2)

lemma natChars_no_dot (n : Nat) : '.' ∉ natChars n := by
  unfold natChars
  simp only [List.mem_reverse, List.mem_map, not_exists]
  rintro d ⟨hd, hdc⟩
  exact digitChar_ne_dot d (Nat.digits_lt_base (by norm_num) hd) hdc

lemma append_dot_inj : ∀ l1 l2 r1 r2 : List Char, '.' ∉ l1 → '.' ∉ l2 →
    l1 ++ '.' :: r1 = l2 ++ '.' :: r2 → l1 = l2 ∧ r1 = r2
  | [], [], r1, r2, _, _, h => by simp_all
  | [], b :: t2, r1, r2, h1, h2, h => by
    simp only [List.nil_append, List.cons_append, List.cons.injEq] at h
    exact absurd (by rw [h.1]; exact List.mem_cons_self b t2) h2
  | a :: t, [], r1, r2, h1, h2, h => by
    simp only [List.nil_append, List.cons_append, List.cons.injEq] at h
    exact absurd (by rw [← h.1]; exact List.mem_cons_self a t) h1
  | a :: t, b :: t2, r1, r2, h1, h2, h => by
    simp only [List.cons_append, List.cons.injEq] at h
    have := append_dot_inj t t2 r1 r2 (fun hc => h1 (List.mem_cons_of_mem a hc))
      (fun hc => h2 (List.mem_cons_of_mem b hc)) h.2
    exact ⟨by rw [h.1, this.1], this.2⟩

lemma downloadFileName_inj (m n : Nat) (t1 t2 : String)
    (h : downloadFileName m t1 = downloadFileName n t2) : m = n := by
  unfold downloadFileName at h
  injection h with h
  exact natChars_injective m n
    (append_dot_inj _ _ _ _ (natChars_no_dot m) (natChars_no_dot n) h).1

/-- Every entry of a serialized run carries a sequence number above the
starting counter and a filename of the canonical shape for that number. -/
lemma genRun_mem (downloadno : Nat) (ts : List String) :
    ∀ p ∈ genRun downloadno ts,
      downloadno < p.2 ∧ ∃ t, p.1 = downloadFileName p.2 t := by
  induction ts generalizing downloadno with
  | nil => intro p hp; simp [genRun] at hp
  | cons t ts ih =>
    intro p hp
    rcases List.mem_cons.1 hp with h | h
    · subst h; exact ⟨Nat.lt_succ_self _, t, rfl⟩
    · obtain ⟨h1, h2⟩ := ih (downloadno + 1) p h
      exact ⟨by omega, h2⟩

lemma genRun_pairwise (downloadno : Nat) (ts : List String) :
    (genRun downloadno ts).Pairwise (fun p q => p.1 ≠ q.1 ∧ p.2 < q.2) := by
  induction ts generalizing downloadno with
  | nil => exact List.Pairwise.nil
  | cons t ts ih =>
    refine List.Pairwise.cons (fun q hq => ?_) (ih (downloadno + 1))
    obtain ⟨hlt, t2, ht2⟩ := genRun_mem (downloadno + 1) ts q hq
    refine ⟨fun heq => ?_, hlt⟩
    have := downloadFileName_inj (downloadno + 1) q.2 t t2 (heq.trans ht2)
    omega

/-- C2: `generateDownloadedImagePath` atomically steps the process-wide
download counter and returns "<sequence-number>.<imageType>" (imageType
defaulting to "png"); hence for any N calls — concurrent calls serialize in
some order because the counter update is atomic — the N filenames are
pairwise distinct and the sequence numbers strictly increase within the
process. -/
theorem c2_unique_download_filenames (downloadno : Nat) (ts : List String) :
    (∀ imageType, generateDownloadedImagePath downloadno imageType =
      (downloadFileName (downloadno + 1) imageType, downloadno + 1)) ∧
    generateDownloadedImagePathDefault downloadno =
      generateDownloadedImagePath downloadno "png" ∧
    ((genRun downloadno ts).map Prod.fst).Pairwise (fun a b => a ≠ b) ∧
    ((genRun downloadno ts).map Prod.snd).Pairwise (fun a b => a < b) := by
  refine ⟨fun _ => rfl, rfl, ?_, ?_⟩
  · exact List.pairwise_map.2
      ((genRun_pairwise downloadno ts).imp (fun h => h.1))
  · exact List.pairwise_map.2
      ((genRun_pairwise downloadno ts).imp (fun h => h.2))

end GlistEngine
